import Mathlib

/-!
Verification development for the alain-bot AI-client core.

The Python source is shallowly embedded: strings are lists of characters,
pure functions become Lean functions, the backend network client and the
random number source are oracles passed as explicit arguments, and Python
exceptions become Except values or tagged error kinds.  Python string
helpers (strip, lower, substring search, the regex idioms used by
src/prompts/base.py) are modelled for the ASCII fragment the program
actually manipulates.
-/

namespace AlainBot

/-- Strings as character lists. -/
abbrev Str := List Char

/-- Python default whitespace, ASCII fragment: space, tab, newline,
carriage return, vertical tab, form feed. -/
def pySpace (c : Char) : Bool :=
  (c == ' ') || (c == '\t') || (c == '\n') || (c == '\r') ||
  (c == Char.ofNat 11) || (c == Char.ofNat 12)

/-- Leading-whitespace removal, one half of Python str.strip. -/
def trimLeft (s : Str) : Str := s.dropWhile pySpace

/-- Trailing-whitespace removal, the other half of Python str.strip. -/
def trimRight (s : Str) : Str := (s.reverse.dropWhile pySpace).reverse

/-- Python str.strip with the default whitespace set. -/
def pyStrip (s : Str) : Str := trimRight (trimLeft s)

/-- Python str.lower on the ASCII fragment. -/
def pyLower (s : Str) : Str := s.map Char.toLower

/-- Does the second list start with the first? -/
def startsWith : Str → Str → Bool
  | [], _ => true
  | _ :: _, [] => false
  | p :: ps, c :: cs => p == c && startsWith ps cs

/-- First occurrence of pat inside s, split form: returns the text before
the occurrence and the text after it.  This models the position found by
the leftmost regex match of a literal, and Python substring search. -/
def findSplit (pat : Str) : Str → Option (Str × Str)
  | [] => if startsWith pat [] then some ([], []) else none
  | c :: cs =>
    if startsWith pat (c :: cs) then some ([], List.drop pat.length (c :: cs))
    else (findSplit pat cs).map (fun pq => (c :: pq.1, pq.2))

/-- Python substring membership test (the in operator on str). -/
def containsSub (pat s : Str) : Bool := (findSplit pat s).isSome

/-- The literal opening tag. -/
def openTag (tag : Str) : Str := '<' :: (tag ++ ['>'])

/-- The literal closing tag. -/
def closeTag (tag : Str) : Str := '<' :: '/' :: (tag ++ ['>'])

/-- Inner text of the first tagged span of the text, untrimmed.  This is
the group of the leftmost non-greedy DOTALL match of the tag pattern used
by src/prompts/base.py: the span runs from the first opening tag to the
first closing tag after it. -/
def rawExtractTag (text tag : Str) : Option Str :=
  match findSplit (openTag tag) text with
  | none => none
  | some pr =>
    match findSplit (closeTag tag) pr.2 with
    | none => none
    | some cq => some cq.1

/-- src/prompts/base.py extract_tag: the first tagged span's inner text,
stripped; none when the pattern does not match. -/
def extract_tag (text tag : Str) : Option Str := (rawExtractTag text tag).map pyStrip

/-- Fuelled scan behind itemMatches.  Each successful step consumes the
opening tag, so fuel larger than the text length never runs out. -/
def itemMatchesFuel (tag : Str) : Nat → Str → List Str
  | 0, _ => []
  | fuel + 1, s =>
    match findSplit (openTag tag) s with
    | none => []
    | some pr =>
      match findSplit (closeTag tag) pr.2 with
      | none => []
      | some cq => pyStrip cq.1 :: itemMatchesFuel tag fuel cq.2

/-- The finditer loop of src/prompts/base.py extract_list: successive
non-overlapping leftmost matches of the item-tag pattern, each group
stripped, in document order. -/
def itemMatches (tag s : Str) : List Str := itemMatchesFuel tag (s.length + 1) s

/-- src/prompts/base.py extract_list: items of the parent tag's extracted
content; empty when the parent content is missing or falsy. -/
def extract_list (text parentTag itemTag : Str) : List Str :=
  match extract_tag text parentTag with
  | none => []
  | some pc => if pc.isEmpty then [] else itemMatches itemTag pc

/-- Python x or default for an optional string: collapses both a missing
string and an empty string to the default. -/
def pyTruthyOr (a : Option Str) (b : Str) : Str :=
  match a with
  | some s => if s.isEmpty then b else s
  | none => b

/-- Parsed classification record of src/prompts/pondering.py. -/
structure PonderingResult where
  is_valid : Bool
  category : Str
  cleaned_content : Option Str
  interpretation : Option Str
deriving DecidableEq

/-- The closed category set of src/prompts/pondering.py. -/
def validCategories : List Str :=
  ["thought".toList, "observation".toList, "feeling".toList, "invalid".toList]

/-- The classification block parse works inside: the extracted
classification tag, collapsed to the empty string when missing or falsy
(the classification or "" idiom). -/
def classificationPart (llmOutput : Str) : Str :=
  pyTruthyOr (extract_tag llmOutput ("classification".toList)) []

/-- The raw extracted is_valid field (already trimmed by extract_tag). -/
def rawIsValidField (llmOutput : Str) : Option Str :=
  extract_tag (classificationPart llmOutput) ("is_valid".toList)

/-- The raw extracted category field (already trimmed by extract_tag). -/
def rawCategoryField (llmOutput : Str) : Option Str :=
  extract_tag (classificationPart llmOutput) ("category".toList)

/-- src/prompts/pondering.py PonderingResult.parse. -/
def PonderingResult.parse (llmOutput : Str) : PonderingResult :=
  let is_valid : Bool :=
    match rawIsValidField llmOutput with
    | some s => !s.isEmpty && (pyLower s == "true".toList)
    | none => false
  let category0 := pyTruthyOr (rawCategoryField llmOutput) ("invalid".toList)
  let category1 := pyStrip (pyLower category0)
  let category2 := if category1 ∈ validCategories then category1 else "invalid".toList
  let cleaned1 : Option Str :=
    match extract_tag llmOutput ("cleaned".toList) with
    | some s => if s.isEmpty then some s else some (pyStrip s)
    | none => none
  let interp1 : Option Str :=
    match extract_tag llmOutput ("interpretation".toList) with
    | some s => if s.isEmpty then some s else some (pyStrip s)
    | none => none
  if is_valid then
    ⟨true, category2, cleaned1, interp1⟩
  else
    ⟨false, "invalid".toList, none, none⟩

/-- Parsed onboarding record of src/prompts/onboarding.py. -/
structure OnboardingResult where
  response_text : Str
  is_complete : Bool
  daily_intentions : List Str
  values : List Str
  goals : List Str
deriving DecidableEq

/-- src/prompts/onboarding.py OnboardingResult.parse. -/
def OnboardingResult.parse (llmOutput : Str) : OnboardingResult :=
  let response_text := pyTruthyOr (extract_tag llmOutput ("response".toList)) (pyStrip llmOutput)
  let statusContent := extract_tag llmOutput ("onboarding_status".toList)
  let completeStr : Option Str :=
    match statusContent with
    | some st => if st.isEmpty then none else extract_tag st ("complete".toList)
    | none => none
  let is_complete : Bool :=
    match completeStr with
    | some s => !s.isEmpty && (pyLower s == "true".toList)
    | none => false
  let profile : List Str × List Str × List Str :=
    if is_complete then
      match extract_tag llmOutput ("profile".toList) with
      | some pc =>
        if pc.isEmpty then ([], [], [])
        else
          (extract_list pc ("daily_intentions".toList) ("intention".toList),
           extract_list pc ("values".toList) ("value".toList),
           extract_list pc ("goals".toList) ("goal".toList))
      | none => ([], [], [])
    else ([], [], [])
  ⟨response_text, is_complete, profile.1, profile.2.1, profile.2.2⟩

/-- A conversation message, src/ai_client/base.py AIMessage. -/
structure AIMessage where
  role : Str
  content : Str
deriving DecidableEq

/-- The system role string. -/
def sysStr : Str := "system".toList

/-- src/ai_client/anthropic.py AnthropicProvider._separate_system_message:
one pass over the messages, overwriting the system prompt on every
system-role message and appending every other message as a turn. -/
def separate_system_message (messages : List AIMessage) : Option Str × List (Str × Str) :=
  messages.foldl
    (fun acc msg =>
      if msg.role = sysStr then (some msg.content, acc.2)
      else (acc.1, acc.2 ++ [(msg.role, msg.content)]))
    (none, [])

/-- The message has the system role. -/
def isSystemRole (m : AIMessage) : Bool := decide (m.role = sysStr)

/-- The anthropic SDK exception classes caught by the two generate paths,
in the order the except clauses discriminate them. -/
inductive AnthropicExcKind where
  | rateLimitError
  | authenticationError
  | notFoundError
  | badRequestError
  | apiError
  | otherException
deriving DecidableEq

/-- A backend failure: its SDK class together with its rendered text. -/
structure AnthropicExc where
  kind : AnthropicExcKind
  text : Str
deriving DecidableEq

/-- The taxonomy of src/ai_client/exceptions.py, restricted to the kinds
the two generate paths can raise. -/
inductive AIErrKind where
  | aiRateLimit
  | aiAuthentication
  | aiModelNotFound
  | aiQuotaExceeded
  | aiProvider
deriving DecidableEq

/-- Error translation of the asynchronous generate
(src/ai_client/anthropic.py lines 105-161). -/
def mapErrorAsync (e : AnthropicExc) : AIErrKind :=
  match e.kind with
  | .rateLimitError => .aiRateLimit
  | .authenticationError => .aiAuthentication
  | .notFoundError =>
    if containsSub ("model".toList) (pyLower e.text) then .aiModelNotFound else .aiProvider
  | .badRequestError =>
    if containsSub ("quota".toList) (pyLower e.text) || containsSub ("limit".toList) (pyLower e.text)
    then .aiQuotaExceeded else .aiProvider
  | .apiError => .aiProvider
  | .otherException => .aiProvider

/-- Error translation of the synchronous generate_sync
(src/ai_client/anthropic.py lines 219-267): identical to the async one
except that every BadRequestError becomes AIProviderError, with no
quota/limit wording check. -/
def mapErrorSync (e : AnthropicExc) : AIErrKind :=
  match e.kind with
  | .rateLimitError => .aiRateLimit
  | .authenticationError => .aiAuthentication
  | .notFoundError =>
    if containsSub ("model".toList) (pyLower e.text) then .aiModelNotFound else .aiProvider
  | .badRequestError => .aiProvider
  | .apiError => .aiProvider
  | .otherException => .aiProvider

/-- The request parameters handed to the anthropic SDK client. -/
structure AnthropicParams where
  model : Str
  maxTokens : Nat
  messages : List (Str × Str)
  system : Option Str
  temperature : Option ℚ
deriving DecidableEq

/-- A successful backend response: content blocks, model name, optional
usage counters (input tokens, output tokens). -/
structure BackendResponse where
  contentBlocks : List Str
  model : Str
  usage : Option (Nat × Nat)
deriving DecidableEq

/-- The backend's reaction to one request. -/
inductive BackendReply where
  | success (r : BackendResponse)
  | failure (e : AnthropicExc)
deriving DecidableEq

/-- The provider-neutral response record, src/ai_client/base.py
AIResponse (the opaque raw_response field is not modelled). -/
structure AIResponse where
  content : Str
  model : Str
  usage : Nat × Nat × Nat
deriving DecidableEq

/-- src/ai_client/anthropic.py AnthropicProvider._extract_usage_info:
counters default to zero when the backend omits them, total is the sum. -/
def extract_usage_info (r : BackendResponse) : Nat × Nat × Nat :=
  match r.usage with
  | some io => (io.1, io.2, io.1 + io.2)
  | none => (0, 0, 0)

/-- Content assembly of both generate paths: concatenate the content
blocks (an empty block list yields the empty string). -/
def joinBlocks (r : BackendResponse) : Str := r.contentBlocks.flatten

/-- Default string fallback with Python truthiness: an empty or missing
value falls back to the default, as in model or self.default_model. -/
def strOrDefault (a : Option Str) (b : Str) : Str :=
  match a with
  | some s => if s.isEmpty then b else s
  | none => b

/-- Request assembly shared by generate and generate_sync
(src/ai_client/anthropic.py lines 57-80 and 172-195): split out the
system prompt, default the model and max_tokens with Python truthiness,
attach the system field only when the prompt is truthy. -/
def buildParams (defaultModel : Str) (messages : List AIMessage)
    (model : Option Str) (maxTokens : Option Nat) (temperature : Option ℚ) : AnthropicParams :=
  let sep := separate_system_message messages
  { model := strOrDefault model defaultModel
    maxTokens := match maxTokens with
      | some n => if n = 0 then 1024 else n
      | none => 1024
    messages := sep.2
    system := match sep.1 with
      | some s => if s.isEmpty then none else some s
      | none => none
    temperature := temperature }

/-- src/ai_client/anthropic.py AnthropicProvider.generate, with the
backend network client as an explicit oracle.  The body performs no
message validation: it builds the parameters, invokes the backend, and
translates the outcome. -/
def generateAsync (defaultModel : Str) (backend : AnthropicParams → BackendReply)
    (messages : List AIMessage) (model : Option Str) (maxTokens : Option Nat)
    (temperature : Option ℚ) : Except AIErrKind AIResponse :=
  match backend (buildParams defaultModel messages model maxTokens temperature) with
  | .success r => .ok ⟨joinBlocks r, r.model, extract_usage_info r⟩
  | .failure e => .error (mapErrorAsync e)

/-- src/ai_client/anthropic.py AnthropicProvider.generate_sync: same
request assembly, synchronous client, sync error translation. -/
def generateSync (defaultModel : Str) (backend : AnthropicParams → BackendReply)
    (messages : List AIMessage) (model : Option Str) (maxTokens : Option Nat)
    (temperature : Option ℚ) : Except AIErrKind AIResponse :=
  match backend (buildParams defaultModel messages model maxTokens temperature) with
  | .success r => .ok ⟨joinBlocks r, r.model, extract_usage_info r⟩
  | .failure e => .error (mapErrorSync e)

/-- src/ai_client/base.py BaseAIProvider._validate_messages on the part
relevant here: an empty message list raises ValueError.  Neither generate
path calls it. -/
def validate_messages_rejects_empty (messages : List AIMessage) : Bool :=
  messages.isEmpty

/-- The exception classes the retry decorators of src/ai_client/retry.py
can observe from a wrapped operation. -/
inductive PyExc where
  | rateLimit (msg : Str)
  | connectionError (msg : Str)
  | timeoutError (msg : Str)
  | otherError (msg : Str)
deriving DecidableEq

/-- Membership in the except tuple
(AIRateLimitError, ConnectionError, TimeoutError) of retry.py. -/
def retryableExc : PyExc → Bool
  | .rateLimit _ => true
  | .connectionError _ => true
  | .timeoutError _ => true
  | .otherError _ => false

instance {ε α : Type} [DecidableEq ε] [DecidableEq α] : DecidableEq (Except ε α) := fun x y =>
  match x, y with
  | .ok a, .ok b =>
    if h : a = b then .isTrue (by rw [h]) else .isFalse (fun hc => h (Except.ok.inj hc))
  | .error a, .error b =>
    if h : a = b then .isTrue (by rw [h]) else .isFalse (fun hc => h (Except.error.inj hc))
  | .ok _, .error _ => .isFalse (fun hc => Except.noConfusion hc)
  | .error _, .ok _ => .isFalse (fun hc => Except.noConfusion hc)

/-- One run of the retry wrapper: final outcome, number of operation
invocations, and the sleep durations in order. -/
structure RetryTrace (α : Type) where
  result : Except PyExc α
  attempts : Nat
  delays : List ℚ
deriving DecidableEq

/-- The backoff formula of retry.py: min(base_delay * 2 ** attempt, max_delay). -/
def backoffDelay (baseDelay maxDelay : ℚ) (attempt : Nat) : ℚ :=
  min (baseDelay * 2 ^ attempt) maxDelay

/-- The duration actually slept at one attempt: the backoff value, plus
random.uniform(0, delay * 0.1) when jitter is on.  The random draw is an
oracle rand with rand attempt in the unit interval, so the uniform draw
is rand attempt * (delay * 1/10). -/
def sleptDelay (jitter : Bool) (baseDelay maxDelay : ℚ) (rand : Nat → ℚ) (attempt : Nat) : ℚ :=
  let d := backoffDelay baseDelay maxDelay attempt
  if jitter then d + rand attempt * (d * (1 / 10)) else d

/-- The loop body of both exponential_backoff wrappers
(src/ai_client/retry.py lines 35-54 and 76-95), at loop index attempt
with fuel = max_retries - attempt iterations left after this one.
A success returns at once; a non-retryable failure is re-raised at once;
a retryable failure is re-raised unchanged when the budget is exhausted,
and otherwise the wrapper sleeps and retries. -/
def retryGo (op : Nat → Except PyExc α) (rand : Nat → ℚ) (baseDelay maxDelay : ℚ)
    (jitter : Bool) : Nat → Nat → RetryTrace α
  | attempt, fuel =>
    match op attempt with
    | .ok v => ⟨.ok v, 1, []⟩
    | .error e =>
      if retryableExc e then
        match fuel with
        | 0 => ⟨.error e, 1, []⟩
        | f + 1 =>
          let d := sleptDelay jitter baseDelay maxDelay rand attempt
          let t := retryGo op rand baseDelay maxDelay jitter (attempt + 1) f
          ⟨t.result, t.attempts + 1, d :: t.delays⟩
      else ⟨.error e, 1, []⟩
termination_by _ fuel => fuel

/-- The whole decorated call, sync and async alike: the for loop runs
attempts 0 .. max_retries.  The attempt outcomes op and the random draws
rand are oracles, making the wrapper itself deterministic. -/
def runRetry (op : Nat → Except PyExc α) (rand : Nat → ℚ) (maxRetries : Nat)
    (baseDelay maxDelay : ℚ) (jitter : Bool) : RetryTrace α :=
  retryGo op rand baseDelay maxDelay jitter 0 maxRetries

/-- The attempt at an index fails with an exception the retry wrapper
catches. -/
def retryFailsAt (op : Nat → Except PyExc α) (i : Nat) : Prop :=
  ∃ e, op i = .error e ∧ retryableExc e = true

/-- Provider kinds of src/ai_client/config.py (only anthropic exists). -/
inductive ProviderType where
  | anthropic
deriving DecidableEq

/-- src/ai_client/config.py ProviderConfig. -/
structure ProviderConfig where
  apiKey : Option Str
  defaultModel : Option Str
  extraConfig : List (Str × Str)
deriving DecidableEq

/-- src/ai_client/config.py AIClientConfig: default provider plus the
configured providers mapping, as an association list. -/
structure AIClientConfig where
  defaultProvider : ProviderType
  providers : List (ProviderType × ProviderConfig)
deriving DecidableEq

/-- First-match association list lookup, modelling Python dict lookup. -/
def alistLookup {κ α : Type} [DecidableEq κ] (k : κ) : List (κ × α) → Option α
  | [] => none
  | kv :: rest => if kv.1 = k then some kv.2 else alistLookup k rest

/-- A constructed adapter instance.  Distinct constructions get distinct
identities (instId), so Python object identity is expressible. -/
structure ProviderInstance where
  instId : Nat
  apiKey : Option Str
  defaultModel : Option Str
  extra : List (Str × Str)
deriving DecidableEq

/-- The mutable world of one AIClientFactory: its configuration, the
ANTHROPIC_API_KEY environment fallback, the provider cache and the next
fresh object identity. -/
structure FactoryState where
  config : AIClientConfig
  envKey : Option Str
  cache : List (ProviderType × ProviderInstance)
  nextId : Nat
deriving DecidableEq

/-- Python dict merge of the two keyword dictionaries in create_provider:
base keys first with overridden values, then the new override keys. -/
def mergeConfig (base overrides : List (Str × Str)) : List (Str × Str) :=
  base.map (fun kv => (kv.1, (alistLookup kv.1 overrides).getD kv.2)) ++
  overrides.filter (fun kv => (alistLookup kv.1 base).isNone)

/-- Python or on two optional strings with truthiness, as in
api_key or os.getenv. -/
def pyOrOpt (a b : Option Str) : Option Str :=
  match a with
  | some s => if s.isEmpty then b else some s
  | none => b

/-- src/ai_client/anthropic.py AnthropicProvider.__init__: the credential
is the explicit key or the environment fallback; a falsy credential
raises ValueError at construction. -/
def mkAnthropicProvider (envKey apiKey defaultModel : Option Str)
    (extra : List (Str × Str)) (freshId : Nat) : Except Str ProviderInstance :=
  match pyOrOpt apiKey envKey with
  | some key =>
    if key.isEmpty then .error ("Anthropic API key is required".toList)
    else .ok ⟨freshId, some key, defaultModel, extra⟩
  | none => .error ("Anthropic API key is required".toList)

/-- Dict assignment on the cache: the new binding shadows any old one. -/
def cacheInsert (p : ProviderType) (inst : ProviderInstance)
    (c : List (ProviderType × ProviderInstance)) : List (ProviderType × ProviderInstance) :=
  (p, inst) :: c

/-- The cache-miss / override path of create_provider
(src/ai_client/factory.py lines 43-56): resolve the provider
configuration (a missing one raises ValueError), merge overrides into
the extra options, construct the instance, and cache it only when no
overrides were supplied. -/
def buildProvider (st : FactoryState) (provider : ProviderType)
    (overrides : List (Str × Str)) : Except Str (ProviderInstance × FactoryState) :=
  match alistLookup provider st.config.providers with
  | none => .error ("Provider is not configured".toList)
  | some pcfg =>
    match mkAnthropicProvider st.envKey pcfg.apiKey pcfg.defaultModel
        (mergeConfig pcfg.extraConfig overrides) st.nextId with
    | .error m => .error m
    | .ok inst =>
      .ok (inst,
        { st with
          cache := if overrides.isEmpty then cacheInsert provider inst st.cache else st.cache
          nextId := st.nextId + 1 })

/-- src/ai_client/factory.py AIClientFactory.create_provider: resolve the
kind, return the cached instance when one exists and no overrides were
given, and otherwise build. -/
def create_provider (st : FactoryState) (providerType : Option ProviderType)
    (overrides : List (Str × Str)) : Except Str (ProviderInstance × FactoryState) :=
  match alistLookup (providerType.getD st.config.defaultProvider) st.cache with
  | some inst =>
    if overrides.isEmpty then .ok (inst, st)
    else buildProvider st (providerType.getD st.config.defaultProvider) overrides
  | none => buildProvider st (providerType.getD st.config.defaultProvider) overrides

/-- The declarative reading of a list-tag extraction used to state claim
C7: the item extraction over the raw (untrimmed) span of the parent tag,
empty when the parent tag is absent. -/
def listTagSpec (text parentTag itemTag : Str) : List Str :=
  match rawExtractTag text parentTag with
  | none => []
  | some span => itemMatches itemTag span

/-- A probe backend for the empty-request claim: its reply records that
the network client was actually invoked. -/
def probeBackend : AnthropicParams → BackendReply := fun p =>
  .success ⟨["backend was invoked".toList], p.model, none⟩

/-- The default model name of src/ai_client/anthropic.py. -/
def haikuModel : Str := "claude-3-5-haiku-20241022".toList

/-- The exact backend response text of the end-to-end scenario. -/
def c8Response : Str :=
  ("<response>Hello</response><onboarding_status><complete>false</complete>" ++
   "<ready>false</ready></onboarding_status>").toList

/-- The same text with the ready flag flipped to true. -/
def c8ResponseReadyTrue : Str :=
  ("<response>Hello</response><onboarding_status><complete>false</complete>" ++
   "<ready>true</ready></onboarding_status>").toList

/-- An operation that fails with a rate limit on every attempt. -/
def opAlwaysRateLimit : Nat → Except PyExc Nat := fun _ => .error (.rateLimit [])

/-- An operation that fails retryably twice and then succeeds. -/
def opSucceedsAt2 : Nat → Except PyExc Nat := fun i =>
  if i < 2 then .error (.rateLimit []) else .ok 42

/-- A fixed random oracle, always in the unit interval. -/
def randHalf : Nat → ℚ := fun _ => 1 / 2

/-- A classification output whose is_valid field holds text other than
the literal true. -/
def invalidFlagExample : Str :=
  ("<classification><is_valid>yes</is_valid><category>thought</category>" ++
   "</classification><cleaned>deep</cleaned><interpretation>x</interpretation>").toList

/-- A classification output with a category outside the closed set. -/
def unknownCategoryExample : Str :=
  "<classification><is_valid>true</is_valid><category>mood</category></classification>".toList

/-- A concrete configured factory state for the factory witnesses. -/
def exampleFactoryState : FactoryState :=
  ⟨⟨.anthropic, [(.anthropic, ⟨some ("k".toList), some haikuModel, []⟩)]⟩, none, [], 0⟩

set_option maxRecDepth 100000

/-! Theorems.  Each claim of the specification review is settled by one
named theorem; shared helper lemmas come first where needed. -/

/-- C1 counterexample: a BadRequest backend failure whose text contains
quota wording is translated to AIQuotaExceededError by the asynchronous
generate but to plain AIProviderError by generate_sync, so the two paths
do not share one classification logic. -/
theorem c1_badRequest_quota_diverges :
    containsSub ("quota".toList)
      (pyLower ("Quota exceeded for this organization".toList)) = true ∧
    mapErrorAsync ⟨.badRequestError, "Quota exceeded for this organization".toList⟩ =
      .aiQuotaExceeded ∧
    mapErrorSync ⟨.badRequestError, "Quota exceeded for this organization".toList⟩ =
      .aiProvider ∧
    AIErrKind.aiQuotaExceeded ≠ AIErrKind.aiProvider := by
  refine ⟨by decide, rfl, rfl, by decide⟩

/-- C1 amended: for every backend failure other than BadRequest the two
paths translate identically; on BadRequest the sync path always raises
ProviderError while the async path raises QuotaExceeded exactly when the
failure text contains quota or limit wording, and ProviderError
otherwise. -/
theorem c1_error_mapping (e : AnthropicExc) :
    (e.kind ≠ .badRequestError → mapErrorAsync e = mapErrorSync e) ∧
    (e.kind = .badRequestError →
      mapErrorSync e = .aiProvider ∧
      ((containsSub ("quota".toList) (pyLower e.text) ||
        containsSub ("limit".toList) (pyLower e.text)) = true →
          mapErrorAsync e = .aiQuotaExceeded) ∧
      ((containsSub ("quota".toList) (pyLower e.text) ||
        containsSub ("limit".toList) (pyLower e.text)) = false →
          mapErrorAsync e = .aiProvider)) := by
  obtain ⟨k, t⟩ := e
  cases k <;>
    simp only [mapErrorAsync, mapErrorSync, ne_eq, not_false_eq_true, not_true_eq_false,
      forall_const, IsEmpty.forall_iff, true_and, and_true] <;>
    constructor <;>
    intro h <;>
    simp_all

/-- C1 witness: instantiation of the amended mapping at a rate-limit
failure, where both paths agree. -/
theorem c1_error_mapping_witness :
    mapErrorAsync ⟨.rateLimitError, []⟩ = mapErrorSync ⟨.rateLimitError, []⟩ :=
  (c1_error_mapping ⟨.rateLimitError, []⟩).1 (by decide)

/-- C3 counterexample: calling either generate path with the empty
message sequence raises nothing beforehand; the backend client is
invoked with an empty turns list and its reply becomes the returned
response, contradicting that an invalid-request error is raised before
any backend call. -/
theorem c3_empty_messages_reach_backend :
    generateAsync haikuModel probeBackend [] none none none =
      .ok ⟨"backend was invoked".toList, haikuModel, (0, 0, 0)⟩ ∧
    generateSync haikuModel probeBackend [] none none none =
      .ok ⟨"backend was invoked".toList, haikuModel, (0, 0, 0)⟩ := by
  exact ⟨rfl, rfl⟩

/-- C3 amended: neither generate path validates the message sequence;
with an empty sequence both build a request whose turns list is empty,
invoke the backend on it, and return the translated backend outcome. -/
theorem c3_no_empty_message_validation (dm : Str) (backend : AnthropicParams → BackendReply)
    (model : Option Str) (maxTokens : Option Nat) (temperature : Option ℚ) :
    (buildParams dm [] model maxTokens temperature).messages = [] ∧
    generateAsync dm backend [] model maxTokens temperature =
      (match backend (buildParams dm [] model maxTokens temperature) with
       | .success r => .ok ⟨joinBlocks r, r.model, extract_usage_info r⟩
       | .failure e => .error (mapErrorAsync e)) ∧
    generateSync dm backend [] model maxTokens temperature =
      (match backend (buildParams dm [] model maxTokens temperature) with
       | .success r => .ok ⟨joinBlocks r, r.model, extract_usage_info r⟩
       | .failure e => .error (mapErrorSync e)) :=
  ⟨rfl, rfl, rfl⟩

/-- Unfolding of the message-splitting fold: the accumulated system
prompt is the last system-role message seen (or the seed), and the
accumulated turns are the seed followed by the non-system messages in
order. -/
theorem sep_foldl (msgs : List AIMessage) :
    ∀ (a : Option Str) (l : List (Str × Str)),
      msgs.foldl
        (fun acc msg =>
          if msg.role = sysStr then (some msg.content, acc.2)
          else (acc.1, acc.2 ++ [(msg.role, msg.content)]))
        (a, l) =
      ((msgs.reverse.find? isSystemRole).elim a (fun m => some m.content),
       l ++ (msgs.filter (fun m => !isSystemRole m)).map (fun m => (m.role, m.content))) := by
  induction msgs with
  | nil => intro a l; simp
  | cons m ms ih =>
    intro a l
    by_cases hm : m.role = sysStr
    · have hd : isSystemRole m = true := by simp [isSystemRole, hm]
      simp only [List.foldl_cons, if_pos hm, List.reverse_cons, List.find?_append,
        List.filter_cons, hd, Bool.not_true]
      rw [ih]
      cases hfind : ms.reverse.find? isSystemRole <;> simp [List.find?, hd]
    · have hd : isSystemRole m = false := by simp [isSystemRole, hm]
      simp only [List.foldl_cons, if_neg hm, List.reverse_cons, List.find?_append,
        List.filter_cons, hd, Bool.not_false]
      rw [ih]
      cases hfind : ms.reverse.find? isSystemRole <;> simp [List.find?, hd]

/-- C2 counterexample: with two system messages followed by one user
turn, the adapter lifts the second (last) system message, not the first,
and the turns list omits the other system message instead of passing all
other messages through. -/
theorem c2_first_system_not_lifted :
    (separate_system_message
      [⟨sysStr, "a".toList⟩, ⟨sysStr, "b".toList⟩, ⟨"user".toList, "x".toList⟩]).1 ≠
      some ("a".toList) ∧
    (separate_system_message
      [⟨sysStr, "a".toList⟩, ⟨sysStr, "b".toList⟩, ⟨"user".toList, "x".toList⟩]).2 ≠
      [(sysStr, "b".toList), ("user".toList, "x".toList)] := by
  refine ⟨by decide, by decide⟩

/-- C2 amended: the request translation lifts the LAST system-role
message (when one exists) into the out-of-band system field, removes
every system-role message from the turns, and passes all non-system
messages, in their original order, as the ordered turns. -/
theorem c2_system_message_split (messages : List AIMessage) :
    (separate_system_message messages).1 =
      (messages.reverse.find? isSystemRole).map AIMessage.content ∧
    (separate_system_message messages).2 =
      (messages.filter (fun m => !isSystemRole m)).map (fun m => (m.role, m.content)) := by
  unfold separate_system_message
  rw [sep_foldl]
  refine ⟨?_, rfl⟩
  cases messages.reverse.find? isSystemRole <;> rfl

/-- C8 counterexample: the onboarding parser produces identical results
for the scenario text with ready set to false and with ready set to
true, so the parsed result carries no is_ready field at all and the
claimed conjunct about is_ready is not a property of the parsed
result. -/
theorem c8_ready_not_parsed :
    OnboardingResult.parse c8Response = OnboardingResult.parse c8ResponseReadyTrue := by
  rfl

/-- C8 amended: parsing the exact scenario text yields response_text
Hello and is_complete false with all profile lists empty; the ready tag
is ignored and the parsed record has no is_ready field. -/
theorem c8_scenario_parse :
    OnboardingResult.parse c8Response = ⟨"Hello".toList, false, [], [], []⟩ := by
  rfl

/-- C6: whenever the extracted is_valid field is absent or its text is
not the literal true case-insensitively (extract_tag already trims), the
parsed classification is the forced-invalid record: is_valid false,
category invalid, and both optional fields absent, whatever else the raw
input contained. -/
theorem c6_invalid_forced (out : Str)
    (h : ∀ s, rawIsValidField out = some s → pyLower s ≠ "true".toList) :
    PonderingResult.parse out = ⟨false, "invalid".toList, none, none⟩ := by
  unfold PonderingResult.parse
  cases hv : rawIsValidField out with
  | none => simp [hv]
  | some s =>
    have hb : (pyLower s == "true".toList) = false := by
      simp only [beq_eq_false_iff_ne, ne_eq]
      exact h s hv
    simp [hv, hb]
    exact fun _ => h s hv

/-- C6 witness: a raw input answering yes instead of true, with category
and both optional texts present, parses to the forced-invalid record. -/
theorem c6_invalid_forced_witness :
    PonderingResult.parse invalidFlagExample = ⟨false, "invalid".toList, none, none⟩ :=
  c6_invalid_forced invalidFlagExample (fun s hs => by
    rw [show rawIsValidField invalidFlagExample = some ("yes".toList) from rfl] at hs
    injection hs with h2
    rw [← h2]
    decide)

/-- C10: the parsed category always lies in the closed set thought,
observation, feeling, invalid; and whenever the lowercased, trimmed raw
category text (defaulted to invalid when absent or falsy) is outside the
set, the parsed category is invalid. -/
theorem c10_category_closed (out : Str) :
    (PonderingResult.parse out).category ∈ validCategories ∧
    (pyStrip (pyLower (pyTruthyOr (rawCategoryField out) ("invalid".toList))) ∉ validCategories →
      (PonderingResult.parse out).category = "invalid".toList) := by
  simp only [PonderingResult.parse]
  constructor
  · split_ifs with h1 h2
    · exact h2
    · show "invalid".toList ∈ validCategories
      decide
    · show "invalid".toList ∈ validCategories
      decide
  · intro hne
    split_ifs with h1
    · rfl
    · rfl

/-- C10 witness: a valid-flagged input with the unrecognized category
mood parses to the invalid category. -/
theorem c10_category_closed_witness :
    (PonderingResult.parse unknownCategoryExample).category = "invalid".toList :=
  (c10_category_closed unknownCategoryExample).2 (by decide)

/-- The attempt counter of the retry loop never exceeds the remaining
budget plus one. -/
theorem retryGo_attempts_le {α : Type} (op : Nat → Except PyExc α) (rand : Nat → ℚ)
    (b m : ℚ) (j : Bool) :
    ∀ (fuel attempt : Nat), (retryGo op rand b m j attempt fuel).attempts ≤ fuel + 1 := by
  intro fuel
  induction fuel with
  | zero =>
    intro attempt
    unfold retryGo
    cases h : op attempt with
    | ok v => simp
    | error e =>
      by_cases hr : retryableExc e = true
      · simp [hr]
      · simp [hr]
  | succ f ih =>
    intro attempt
    unfold retryGo
    cases h : op attempt with
    | ok v => simp
    | error e =>
      by_cases hr : retryableExc e = true
      · simp only [hr, if_true]
        have := ih (attempt + 1)
        simp
        omega
      · simp [hr]

/-- When every attempt in the window fails retryably, the loop re-raises
the error value of the last attempt unchanged. -/
theorem retryGo_result_all_fail {α : Type} (op : Nat → Except PyExc α) (rand : Nat → ℚ)
    (b m : ℚ) (j : Bool) :
    ∀ (fuel attempt : Nat) (e : PyExc),
      (∀ k, k ≤ fuel → retryFailsAt op (attempt + k)) →
      op (attempt + fuel) = .error e →
      (retryGo op rand b m j attempt fuel).result = .error e := by
  intro fuel
  induction fuel with
  | zero =>
    intro attempt e hall hlast
    rw [Nat.add_zero] at hlast
    have hre : retryableExc e = true := by
      obtain ⟨e0, he0, hr0⟩ := hall 0 (Nat.zero_le _)
      rw [Nat.add_zero] at he0
      rw [hlast] at he0
      injection he0 with he1
      rw [he1]
      exact hr0
    unfold retryGo
    simp [hlast, hre]
  | succ f ih =>
    intro attempt e hall hlast
    obtain ⟨e0, he0, hr0⟩ := hall 0 (Nat.zero_le _)
    rw [Nat.add_zero] at he0
    unfold retryGo
    simp only [he0, hr0, if_true]
    have hall2 : ∀ k, k ≤ f → retryFailsAt op (attempt + 1 + k) := by
      intro k hk
      have h2 := hall (k + 1) (by omega)
      rwa [show attempt + (k + 1) = attempt + 1 + k from by omega] at h2
    have hlast2 : op (attempt + 1 + f) = .error e := by
      rwa [show attempt + 1 + f = attempt + (f + 1) from by omega]
    exact ih (attempt + 1) e hall2 hlast2

/-- The first successful attempt inside the window determines the
returned value, provided all attempts before it failed retryably. -/
theorem retryGo_result_first_ok {α : Type} (op : Nat → Except PyExc α) (rand : Nat → ℚ)
    (b m : ℚ) (j : Bool) :
    ∀ (i fuel attempt : Nat) (v : α),
      i ≤ fuel →
      op (attempt + i) = .ok v →
      (∀ k, k < i → retryFailsAt op (attempt + k)) →
      (retryGo op rand b m j attempt fuel).result = .ok v := by
  intro i
  induction i with
  | zero =>
    intro fuel attempt v _ hok _
    rw [Nat.add_zero] at hok
    unfold retryGo
    simp [hok]
  | succ n ih =>
    intro fuel attempt v hle hok hpre
    obtain ⟨e0, he0, hr0⟩ := hpre 0 (by omega)
    rw [Nat.add_zero] at he0
    obtain ⟨f, rfl⟩ : ∃ f, fuel = f + 1 := ⟨fuel - 1, by omega⟩
    unfold retryGo
    simp only [he0, hr0, if_true]
    have hok2 : op (attempt + 1 + n) = .ok v := by
      rwa [show attempt + 1 + n = attempt + (n + 1) from by omega]
    have hpre2 : ∀ k, k < n → retryFailsAt op (attempt + 1 + k) := by
      intro k hk
      have h2 := hpre (k + 1) (by omega)
      rwa [show attempt + (k + 1) = attempt + 1 + k from by omega] at h2
    exact ih f (attempt + 1) v (by omega) hok2 hpre2

/-- The sleep recorded after the attempt at each index is the slept
delay of that attempt, as long as every attempt up to it failed
retryably and the budget was not yet exhausted. -/
theorem retryGo_delays_get {α : Type} (op : Nat → Except PyExc α) (rand : Nat → ℚ)
    (b m : ℚ) (j : Bool) :
    ∀ (i fuel attempt : Nat),
      i < fuel →
      (∀ k, k ≤ i → retryFailsAt op (attempt + k)) →
      (retryGo op rand b m j attempt fuel).delays[i]? =
        some (sleptDelay j b m rand (attempt + i)) := by
  intro i
  induction i with
  | zero =>
    intro fuel attempt hf hall
    obtain ⟨e0, he0, hr0⟩ := hall 0 (Nat.zero_le _)
    rw [Nat.add_zero] at he0
    obtain ⟨f, rfl⟩ : ∃ f, fuel = f + 1 := ⟨fuel - 1, by omega⟩
    unfold retryGo
    simp [he0, hr0]
  | succ n ih =>
    intro fuel attempt hf hall
    obtain ⟨e0, he0, hr0⟩ := hall 0 (Nat.zero_le _)
    rw [Nat.add_zero] at he0
    obtain ⟨f, rfl⟩ : ∃ f, fuel = f + 1 := ⟨fuel - 1, by omega⟩
    unfold retryGo
    simp only [he0, hr0, if_true, List.getElem?_cons_succ]
    have hall2 : ∀ k, k ≤ n → retryFailsAt op (attempt + 1 + k) := by
      intro k hk
      have h2 := hall (k + 1) (by omega)
      rwa [show attempt + (k + 1) = attempt + 1 + k from by omega] at h2
    have h3 := ih f (attempt + 1) (by omega) hall2
    rw [show attempt + 1 + n = attempt + (n + 1) from by omega] at h3
    exact h3

/-- C5: with max_retries r the wrapper performs at most r + 1 attempts;
if every attempt fails retryably the error value raised by the last
attempt is re-raised unchanged; and if some attempt within the budget
succeeds after retryable failures, its success value is returned. -/
theorem c5_retry_budget {α : Type} (op : Nat → Except PyExc α) (rand : Nat → ℚ)
    (r : Nat) (b m : ℚ) (j : Bool) :
    (runRetry op rand r b m j).attempts ≤ r + 1 ∧
    (∀ e, (∀ k, k ≤ r → retryFailsAt op k) → op r = .error e →
      (runRetry op rand r b m j).result = .error e) ∧
    (∀ i v, i ≤ r → (∀ k, k < i → retryFailsAt op k) → op i = .ok v →
      (runRetry op rand r b m j).result = .ok v) := by
  refine ⟨retryGo_attempts_le op rand b m j r 0, ?_, ?_⟩
  · intro e hall hlast
    exact retryGo_result_all_fail op rand b m j r 0 e
      (fun k hk => by rw [Nat.zero_add]; exact hall k hk)
      (by rw [Nat.zero_add]; exact hlast)
  · intro i v hle hpre hok
    exact retryGo_result_first_ok op rand b m j i r 0 v hle
      (by rw [Nat.zero_add]; exact hok)
      (fun k hk => by rw [Nat.zero_add]; exact hpre k hk)

/-- C5 witness: an operation failing retryably twice and then succeeding
returns 42 under max_retries 3, within the attempt budget. -/
theorem c5_retry_budget_witness :
    (runRetry opSucceedsAt2 randHalf 3 1 60 false).attempts ≤ 4 ∧
    (runRetry opSucceedsAt2 randHalf 3 1 60 false).result = .ok 42 :=
  ⟨(c5_retry_budget opSucceedsAt2 randHalf 3 1 60 false).1,
   (c5_retry_budget opSucceedsAt2 randHalf 3 1 60 false).2.2 2 42 (by omega)
     (fun k hk => ⟨.rateLimit [], by simp [opSucceedsAt2, hk], rfl⟩)
     (by decide)⟩

/-- C4: when attempt i fails retryably with i below max_retries, the
recorded delay before the next attempt is exactly min of base times two
to the i and max_delay with jitter disabled, and with jitter enabled it
is that value plus an amount drawn from zero to one tenth of it. -/
theorem c4_backoff_formula {α : Type} (op : Nat → Except PyExc α) (rand : Nat → ℚ)
    (r : Nat) (b m : ℚ) (i : Nat)
    (hi : i < r) (hfail : ∀ k, k ≤ i → retryFailsAt op k)
    (hb : 0 ≤ b) (hm : 0 ≤ m) (h0 : 0 ≤ rand i) (h1 : rand i ≤ 1) :
    (runRetry op rand r b m false).delays[i]? = some (backoffDelay b m i) ∧
    ∃ u, 0 ≤ u ∧ u ≤ backoffDelay b m i * (1 / 10) ∧
      (runRetry op rand r b m true).delays[i]? = some (backoffDelay b m i + u) := by
  have hd : 0 ≤ backoffDelay b m i :=
    le_min (mul_nonneg hb (by positivity)) hm
  constructor
  · have h := retryGo_delays_get op rand b m false i r 0 hi
      (fun k hk => by rw [Nat.zero_add]; exact hfail k hk)
    rw [Nat.zero_add] at h
    unfold runRetry
    rw [h]
    simp [sleptDelay]
  · refine ⟨rand i * (backoffDelay b m i * (1 / 10)), ?_, ?_, ?_⟩
    · exact mul_nonneg h0 (mul_nonneg hd (by norm_num))
    · exact mul_le_of_le_one_left (mul_nonneg hd (by norm_num)) h1
    · have h := retryGo_delays_get op rand b m true i r 0 hi
        (fun k hk => by rw [Nat.zero_add]; exact hfail k hk)
      rw [Nat.zero_add] at h
      unfold runRetry
      rw [h]
      simp [sleptDelay]

/-- C4 witness: under permanent rate limiting with base 1 and cap 60,
the delay recorded after attempt 1 matches the backoff formula in both
jitter modes. -/
theorem c4_backoff_formula_witness :
    (runRetry opAlwaysRateLimit randHalf 3 1 60 false).delays[1]? = some (backoffDelay 1 60 1) ∧
    ∃ u, 0 ≤ u ∧ u ≤ backoffDelay 1 60 1 * (1 / 10) ∧
      (runRetry opAlwaysRateLimit randHalf 3 1 60 true).delays[1]? =
        some (backoffDelay 1 60 1 + u) :=
  c4_backoff_formula opAlwaysRateLimit randHalf 3 1 60 1 (by omega)
    (fun k hk => ⟨.rateLimit [], rfl, rfl⟩)
    (by norm_num) (by norm_num) (by norm_num [randHalf]) (by norm_num [randHalf])


/-- Cache independence of the build path: building with overrides from a
state with any cache content yields the same instance and the same state
except that the untouched cache is carried through. -/
theorem buildProvider_cache_indep (st : FactoryState) (c : List (ProviderType × ProviderInstance))
    (provider : ProviderType) (ov : List (Str × Str)) (hov : ov.isEmpty = false) :
    buildProvider { st with cache := c } provider ov =
      (buildProvider st provider ov).map (fun r => (r.1, { r.2 with cache := c })) := by
  unfold buildProvider
  cases hc : alistLookup provider st.config.providers with
  | none => simp [hc, Except.map]
  | some pcfg =>
    cases hmk : mkAnthropicProvider st.envKey pcfg.apiKey pcfg.defaultModel
        (mergeConfig pcfg.extraConfig ov) st.nextId with
    | error msg => simp [hc, hmk, Except.map]
    | ok inst => simp [hc, hmk, hov, Except.map]

/-- C9: a create_provider call with no overrides that succeeds caches
its instance so that the next no-override call returns the identical
instance and leaves the state unchanged; a call with overrides never
writes to the cache (the resulting state keeps the old cache) and never
reads it (its outcome is the same for every cache content, up to the
carried-through cache). -/
theorem c9_factory (st : FactoryState) (pt : Option ProviderType) :
    (∀ i1 st1, create_provider st pt [] = .ok (i1, st1) →
      create_provider st1 pt [] = .ok (i1, st1)) ∧
    (∀ ov, ov ≠ [] →
      (∀ i st2, create_provider st pt ov = .ok (i, st2) → st2.cache = st.cache) ∧
      (∀ c, create_provider { st with cache := c } pt ov =
        (create_provider st pt ov).map (fun r => (r.1, { r.2 with cache := c })))) := by
  constructor
  · intro i1 st1 heq
    cases h : alistLookup (pt.getD st.config.defaultProvider) st.cache with
    | some inst =>
      simp only [create_provider, h, List.isEmpty, if_true] at heq
      simp at heq
      obtain ⟨h1, h2⟩ := heq
      subst h1
      subst h2
      simp [create_provider, h]
    | none =>
      cases hc : alistLookup (pt.getD st.config.defaultProvider) st.config.providers with
      | none =>
        simp [create_provider, buildProvider, h, hc] at heq
      | some pcfg =>
        cases hmk : mkAnthropicProvider st.envKey pcfg.apiKey pcfg.defaultModel
            (mergeConfig pcfg.extraConfig []) st.nextId with
        | error msg =>
          simp [create_provider, buildProvider, h, hc, hmk] at heq
        | ok inst =>
          simp [create_provider, buildProvider, h, hc, hmk, cacheInsert] at heq
          obtain ⟨h1, h2⟩ := heq
          subst h1
          subst h2
          simp [create_provider, alistLookup, cacheInsert]
  · intro ov hov
    have hovF : ov.isEmpty = false := by
      cases ov with
      | nil => exact absurd rfl hov
      | cons x xs => rfl
    constructor
    · intro i st2 heq
      cases h : alistLookup (pt.getD st.config.defaultProvider) st.cache with
      | some inst =>
        cases hc : alistLookup (pt.getD st.config.defaultProvider) st.config.providers with
        | none =>
          simp [create_provider, buildProvider, h, hc, hovF] at heq
        | some pcfg =>
          cases hmk : mkAnthropicProvider st.envKey pcfg.apiKey pcfg.defaultModel
              (mergeConfig pcfg.extraConfig ov) st.nextId with
          | error msg =>
            simp [create_provider, buildProvider, h, hc, hmk, hovF] at heq
          | ok inst2 =>
            simp [create_provider, buildProvider, h, hc, hmk, hovF] at heq
            obtain ⟨h1, h2⟩ := heq
            subst h2
            rfl
      | none =>
        cases hc : alistLookup (pt.getD st.config.defaultProvider) st.config.providers with
        | none =>
          simp [create_provider, buildProvider, h, hc, hovF] at heq
        | some pcfg =>
          cases hmk : mkAnthropicProvider st.envKey pcfg.apiKey pcfg.defaultModel
              (mergeConfig pcfg.extraConfig ov) st.nextId with
          | error msg =>
            simp [create_provider, buildProvider, h, hc, hmk, hovF] at heq
          | ok inst2 =>
            simp [create_provider, buildProvider, h, hc, hmk, hovF] at heq
            obtain ⟨h1, h2⟩ := heq
            subst h2
            rfl
    · intro c
      cases hlc : alistLookup (pt.getD st.config.defaultProvider) c with
      | some instc =>
        cases hl : alistLookup (pt.getD st.config.defaultProvider) st.cache with
        | some inst =>
          simp only [create_provider, hlc, hl, hovF, if_false, Bool.false_eq_true]
          exact buildProvider_cache_indep st c _ ov hovF
        | none =>
          simp only [create_provider, hlc, hl, hovF, if_false, Bool.false_eq_true]
          exact buildProvider_cache_indep st c _ ov hovF
      | none =>
        cases hl : alistLookup (pt.getD st.config.defaultProvider) st.cache with
        | some inst =>
          simp only [create_provider, hlc, hl, hovF, if_false, Bool.false_eq_true]
          exact buildProvider_cache_indep st c _ ov hovF
        | none =>
          simp only [create_provider, hlc, hl, hovF, if_false, Bool.false_eq_true]
          exact buildProvider_cache_indep st c _ ov hovF

/-- C9 witness: on a concrete configured factory, the second no-override
call returns the cached instance unchanged, and an override call leaves
the cache as it was. -/
theorem c9_factory_witness :
    create_provider
      { exampleFactoryState with
        cache := [(.anthropic, ⟨0, some ("k".toList), some haikuModel, []⟩)], nextId := 1 }
      none [] =
      .ok (⟨0, some ("k".toList), some haikuModel, []⟩,
        { exampleFactoryState with
          cache := [(.anthropic, ⟨0, some ("k".toList), some haikuModel, []⟩)], nextId := 1 }) ∧
    ({ exampleFactoryState with nextId := 1 } : FactoryState).cache = exampleFactoryState.cache :=
  ⟨(c9_factory exampleFactoryState none).1 _ _ rfl,
   ((c9_factory exampleFactoryState none).2 [("t".toList, "v".toList)]
     (List.cons_ne_nil _ _)).1 _ _ rfl⟩


/-- A list starts with a pattern exactly when it is the pattern followed
by a remainder. -/
theorem startsWith_iff (p : Str) : ∀ s : Str, startsWith p s = true ↔ ∃ t, s = p ++ t := by
  induction p with
  | nil => intro s; simp [startsWith]
  | cons a as ih =>
    intro s
    cases s with
    | nil => simp [startsWith]
    | cons b bs =>
      simp only [startsWith, Bool.and_eq_true, beq_iff_eq, ih bs]
      constructor
      · rintro ⟨rfl, t, rfl⟩
        exact ⟨t, rfl⟩
      · rintro ⟨t, ht⟩
        injection ht with h1 h2
        exact ⟨h1.symm, t, h2⟩

/-- A successful split decomposes the text as prefix, pattern,
remainder. -/
theorem findSplit_eq_append {pat : Str} : ∀ {s p q : Str},
    findSplit pat s = some (p, q) → s = p ++ pat ++ q := by
  intro s
  induction s with
  | nil =>
    intro p q h
    unfold findSplit at h
    by_cases hs : startsWith pat [] = true
    · obtain ⟨t, ht⟩ := (startsWith_iff pat []).mp hs
      rw [if_pos hs] at h
      injection h with h2
      injection h2 with h3 h4
      subst h3
      subst h4
      cases pat with
      | nil => rfl
      | cons a as => simp at ht
    · rw [if_neg hs] at h
      cases h
  | cons c cs ih =>
    intro p q h
    unfold findSplit at h
    by_cases hs : startsWith pat (c :: cs) = true
    · obtain ⟨t, ht⟩ := (startsWith_iff pat (c :: cs)).mp hs
      rw [if_pos hs] at h
      injection h with h2
      injection h2 with h3 h4
      subst h3
      subst h4
      conv_lhs => rw [ht]
      rw [ht, List.nil_append, List.drop_append_eq_append_drop, List.drop_length,
        Nat.sub_self, List.drop_zero, List.nil_append]
    · rw [if_neg hs] at h
      cases hf : findSplit pat cs with
      | none => rw [hf] at h; cases h
      | some pq =>
        rw [hf] at h
        injection h with h2
        obtain ⟨p1, q1⟩ := pq
        injection h2 with h3 h4
        subst h3
        subst h4
        have := ih hf
        rw [this]
        rfl

/-- A non-whitespace character never equals a whitespace character. -/
theorem beq_false_of_space_mismatch {a w : Char} (ha : pySpace a = false)
    (hw : pySpace w = true) : (a == w) = false := by
  rw [beq_eq_false_iff_ne]
  intro h
  rw [h, hw] at ha
  cases ha

/-- Leading whitespace cannot start a match of a non-whitespace pattern,
so it only shifts the prefix of the split. -/
theorem findSplit_ws_prepend {pat : Str} (hne : pat ≠ [])
    (hp : ∀ a ∈ pat, pySpace a = false) :
    ∀ (ws t : Str), (∀ a ∈ ws, pySpace a = true) →
      findSplit pat (ws ++ t) = (findSplit pat t).map (fun pq => (ws ++ pq.1, pq.2)) := by
  intro ws
  induction ws with
  | nil =>
    intro t _
    cases h : findSplit pat t with
    | none => simp [h]
    | some pq => simp [h]
  | cons w ws ih =>
    intro t hws
    obtain ⟨a, as, rfl⟩ : ∃ a as, pat = a :: as := by
      cases pat with
      | nil => exact absurd rfl hne
      | cons a as => exact ⟨a, as, rfl⟩
    have hsw : startsWith (a :: as) (w :: (ws ++ t)) = false := by
      simp only [startsWith]
      rw [beq_false_of_space_mismatch (hp a (List.mem_cons_self a as))
        (hws w (List.mem_cons_self w ws))]
      rfl
    simp only [List.cons_append]
    have step : findSplit (a :: as) (w :: (ws ++ t)) =
        (findSplit (a :: as) (ws ++ t)).map (fun pq => (w :: pq.1, pq.2)) := by
      conv_lhs => unfold findSplit
      rw [hsw]
      simp
    rw [step, ih t (fun x hx => hws x (List.mem_cons_of_mem w hx))]
    cases h : findSplit (a :: as) t with
    | none => simp [h]
    | some pq => simp [h]

/-- A non-whitespace pattern never occurs in pure whitespace. -/
theorem findSplit_allspace_none {pat : Str} (hne : pat ≠ [])
    (hp : ∀ a ∈ pat, pySpace a = false) :
    ∀ (ws : Str), (∀ a ∈ ws, pySpace a = true) → findSplit pat ws = none := by
  intro ws hws
  have h := findSplit_ws_prepend hne hp ws [] hws
  rw [List.append_nil] at h
  rw [h]
  obtain ⟨a, as, rfl⟩ : ∃ a as, pat = a :: as := by
    cases pat with
    | nil => exact absurd rfl hne
    | cons a as => exact ⟨a, as, rfl⟩
  rfl

/-- Appending trailing whitespace never changes whether a text starts
with a non-whitespace pattern. -/
theorem startsWith_append_ws {ws : Str} (hws : ∀ a ∈ ws, pySpace a = true) :
    ∀ (pat : Str), (∀ a ∈ pat, pySpace a = false) →
      ∀ t : Str, startsWith pat (t ++ ws) = startsWith pat t := by
  intro pat
  induction pat with
  | nil => intro _ t; cases t <;> rfl
  | cons a as ih =>
    intro hp t
    cases t with
    | nil =>
      simp only [List.nil_append]
      cases ws with
      | nil => rfl
      | cons w ws1 =>
        show startsWith (a :: as) (w :: ws1) = false
        simp only [startsWith]
        rw [beq_false_of_space_mismatch (hp a (List.mem_cons_self a as))
          (hws w (List.mem_cons_self w ws1))]
        rfl
    | cons b bs =>
      show startsWith (a :: as) (b :: (bs ++ ws)) = startsWith (a :: as) (b :: bs)
      simp only [startsWith]
      rw [ih (fun x hx => hp x (List.mem_cons_of_mem a hx)) bs]

/-- Trailing whitespace cannot take part in a match of a non-whitespace
pattern, so it only extends the remainder of the split. -/
theorem findSplit_append_ws {pat ws : Str} (hne : pat ≠ [])
    (hp : ∀ a ∈ pat, pySpace a = false) (hws : ∀ a ∈ ws, pySpace a = true) :
    ∀ t : Str, findSplit pat (t ++ ws) = (findSplit pat t).map (fun pq => (pq.1, pq.2 ++ ws)) := by
  intro t
  induction t with
  | nil =>
    rw [List.nil_append, findSplit_allspace_none hne hp ws hws]
    obtain ⟨a, as, rfl⟩ : ∃ a as, pat = a :: as := by
      cases pat with
      | nil => exact absurd rfl hne
      | cons a as => exact ⟨a, as, rfl⟩
    rfl
  | cons c cs ih =>
    simp only [List.cons_append]
    cases hsw : startsWith pat (c :: cs) with
    | true =>
      have hsw2 : startsWith pat (c :: (cs ++ ws)) = true := by
        have h2 : startsWith pat ((c :: cs) ++ ws) = startsWith pat (c :: cs) :=
          startsWith_append_ws hws pat hp (c :: cs)
        rw [← h2] at hsw
        exact hsw
      obtain ⟨t2, ht2⟩ := (startsWith_iff pat (c :: cs)).mp hsw
      have hlen : pat.length ≤ (c :: cs).length := by
        rw [ht2]
        simp
      have step1 : findSplit pat (c :: (cs ++ ws)) =
          some ([], List.drop pat.length (c :: (cs ++ ws))) := by
        conv_lhs => unfold findSplit
        rw [hsw2]
        simp
      have step2 : findSplit pat (c :: cs) =
          some ([], List.drop pat.length (c :: cs)) := by
        conv_lhs => unfold findSplit
        rw [hsw]
        simp
      have hdrop : List.drop pat.length (c :: (cs ++ ws)) =
          List.drop pat.length (c :: cs) ++ ws := by
        rw [show c :: (cs ++ ws) = (c :: cs) ++ ws from rfl,
          List.drop_append_eq_append_drop, Nat.sub_eq_zero_of_le hlen, List.drop_zero]
      rw [step1, step2]
      simp [hdrop]
    | false =>
      have hsw2 : startsWith pat (c :: (cs ++ ws)) = false := by
        have h2 : startsWith pat ((c :: cs) ++ ws) = startsWith pat (c :: cs) :=
          startsWith_append_ws hws pat hp (c :: cs)
        rw [← h2] at hsw
        exact hsw
      have step1 : findSplit pat (c :: (cs ++ ws)) =
          (findSplit pat (cs ++ ws)).map (fun pq => (c :: pq.1, pq.2)) := by
        conv_lhs => unfold findSplit
        rw [hsw2]
        simp
      have step2 : findSplit pat (c :: cs) =
          (findSplit pat cs).map (fun pq => (c :: pq.1, pq.2)) := by
        conv_lhs => unfold findSplit
        rw [hsw]
        simp
      rw [step1, step2, ih]
      cases h : findSplit pat cs with
      | none => simp [h]
      | some pq => simp [h]

/-- Opening tags are never empty. -/
theorem openTag_ne_nil (tag : Str) : openTag tag ≠ [] := by simp [openTag]

/-- Closing tags are never empty. -/
theorem closeTag_ne_nil (tag : Str) : closeTag tag ≠ [] := by simp [closeTag]

/-- An opening tag of a whitespace-free tag name has no whitespace. -/
theorem openTag_nonspace {tag : Str} (h : ∀ a ∈ tag, pySpace a = false) :
    ∀ a ∈ openTag tag, pySpace a = false := by
  intro a ha
  simp only [openTag, List.mem_cons, List.mem_append, List.mem_singleton,
    List.not_mem_nil, or_false] at ha
  rcases ha with rfl | ha | rfl
  · rfl
  · exact h a ha
  · rfl

/-- A closing tag of a whitespace-free tag name has no whitespace. -/
theorem closeTag_nonspace {tag : Str} (h : ∀ a ∈ tag, pySpace a = false) :
    ∀ a ∈ closeTag tag, pySpace a = false := by
  intro a ha
  simp only [closeTag, List.mem_cons, List.mem_append, List.mem_singleton,
    List.not_mem_nil, or_false] at ha
  rcases ha with rfl | rfl | ha | rfl
  · rfl
  · rfl
  · exact h a ha
  · rfl

/-- Leading whitespace does not change the item matches of a span. -/
theorem itemMatchesFuel_ws_prepend {tag : Str} (htag : ∀ a ∈ tag, pySpace a = false) :
    ∀ (fuel : Nat) (ws t : Str), (∀ a ∈ ws, pySpace a = true) →
      itemMatchesFuel tag fuel (ws ++ t) = itemMatchesFuel tag fuel t := by
  intro fuel ws t hws
  cases fuel with
  | zero => rfl
  | succ f =>
    unfold itemMatchesFuel
    rw [findSplit_ws_prepend (openTag_ne_nil tag) (openTag_nonspace htag) ws t hws]
    cases h : findSplit (openTag tag) t with
    | none => rfl
    | some pr => simp

/-- Trailing whitespace does not change the item matches of a span. -/
theorem itemMatchesFuel_ws_append {tag : Str} (htag : ∀ a ∈ tag, pySpace a = false) :
    ∀ (fuel : Nat) (t ws : Str), (∀ a ∈ ws, pySpace a = true) →
      itemMatchesFuel tag fuel (t ++ ws) = itemMatchesFuel tag fuel t := by
  intro fuel
  induction fuel with
  | zero => intro t ws _; rfl
  | succ f ih =>
    intro t ws hws
    unfold itemMatchesFuel
    rw [findSplit_append_ws (openTag_ne_nil tag) (openTag_nonspace htag) hws t]
    cases h : findSplit (openTag tag) t with
    | none => rfl
    | some pr =>
      show (match findSplit (closeTag tag) (pr.2 ++ ws) with
            | none => []
            | some cq => pyStrip cq.1 :: itemMatchesFuel tag f cq.2) =
          (match findSplit (closeTag tag) pr.2 with
            | none => []
            | some cq => pyStrip cq.1 :: itemMatchesFuel tag f cq.2)
      rw [findSplit_append_ws (closeTag_ne_nil tag) (closeTag_nonspace htag) hws pr.2]
      cases h2 : findSplit (closeTag tag) pr.2 with
      | none => rfl
      | some cq =>
        show pyStrip cq.1 :: itemMatchesFuel tag f (cq.2 ++ ws) =
          pyStrip cq.1 :: itemMatchesFuel tag f cq.2
        rw [ih cq.2 ws hws]

/-- The fuelled scan is independent of the fuel once the fuel exceeds
the text length. -/
theorem itemMatchesFuel_congr (tag : Str) :
    ∀ (n : Nat) (s : Str), s.length ≤ n → ∀ (f1 f2 : Nat), s.length < f1 → s.length < f2 →
      itemMatchesFuel tag f1 s = itemMatchesFuel tag f2 s := by
  intro n
  induction n with
  | zero =>
    intro s hs f1 f2 h1 h2
    have hnil : s = [] := List.length_eq_zero.mp (Nat.le_zero.mp hs)
    subst hnil
    obtain ⟨g1, rfl⟩ : ∃ g, f1 = g + 1 := ⟨f1 - 1, by omega⟩
    obtain ⟨g2, rfl⟩ : ∃ g, f2 = g + 1 := ⟨f2 - 1, by omega⟩
    rfl
  | succ n ih =>
    intro s hs f1 f2 h1 h2
    obtain ⟨g1, rfl⟩ : ∃ g, f1 = g + 1 := ⟨f1 - 1, by omega⟩
    obtain ⟨g2, rfl⟩ : ∃ g, f2 = g + 1 := ⟨f2 - 1, by omega⟩
    unfold itemMatchesFuel
    cases h : findSplit (openTag tag) s with
    | none => rfl
    | some pr =>
      show (match findSplit (closeTag tag) pr.2 with
            | none => []
            | some cq => pyStrip cq.1 :: itemMatchesFuel tag g1 cq.2) =
          (match findSplit (closeTag tag) pr.2 with
            | none => []
            | some cq => pyStrip cq.1 :: itemMatchesFuel tag g2 cq.2)
      cases h2 : findSplit (closeTag tag) pr.2 with
      | none => rfl
      | some cq =>
        have e1 := findSplit_eq_append h
        have e2 := findSplit_eq_append h2
        have hl1 : s.length = pr.1.length + (openTag tag).length + pr.2.length := by
          rw [e1]; simp; omega
        have hl2 : pr.2.length = cq.1.length + (closeTag tag).length + cq.2.length := by
          rw [e2]; simp; omega
        have hlo : (openTag tag).length = tag.length + 2 := by simp [openTag]
        have hlc : (closeTag tag).length = tag.length + 3 := by simp [closeTag]
        show pyStrip cq.1 :: itemMatchesFuel tag g1 cq.2 =
          pyStrip cq.1 :: itemMatchesFuel tag g2 cq.2
        rw [ih cq.2 (by omega) g1 g2 (by omega) (by omega)]

/-- Dropping a prefix never lengthens a list. -/
theorem length_dropWhile_le (p : Char → Bool) (l : Str) :
    (l.dropWhile p).length ≤ l.length := by
  have h := congrArg List.length (List.takeWhile_append_dropWhile p l)
  simp only [List.length_append] at h
  omega

/-- A string is its leading whitespace followed by its left trim. -/
theorem trimLeft_decomp (s : Str) :
    ∃ ws, (∀ a ∈ ws, pySpace a = true) ∧ s = ws ++ trimLeft s :=
  ⟨s.takeWhile pySpace, fun _ ha => List.mem_takeWhile_imp ha,
    (List.takeWhile_append_dropWhile pySpace s).symm⟩

/-- A string is its right trim followed by its trailing whitespace. -/
theorem trimRight_decomp (x : Str) :
    ∃ ws, (∀ a ∈ ws, pySpace a = true) ∧ x = trimRight x ++ ws := by
  refine ⟨(x.reverse.takeWhile pySpace).reverse, ?_, ?_⟩
  · intro a ha
    rw [List.mem_reverse] at ha
    exact List.mem_takeWhile_imp ha
  · calc x = x.reverse.reverse := (List.reverse_reverse x).symm
    _ = (x.reverse.takeWhile pySpace ++ x.reverse.dropWhile pySpace).reverse := by
        rw [List.takeWhile_append_dropWhile]
    _ = (x.reverse.dropWhile pySpace).reverse ++ (x.reverse.takeWhile pySpace).reverse := by
        rw [List.reverse_append]
    _ = trimRight x ++ (x.reverse.takeWhile pySpace).reverse := rfl

/-- A string whose strip is empty is pure whitespace. -/
theorem strip_nil_allspace {s : Str} (h : pyStrip s = []) : ∀ a ∈ s, pySpace a = true := by
  unfold pyStrip trimRight at h
  have h2 : (trimLeft s).reverse.dropWhile pySpace = [] := by
    rwa [List.reverse_eq_nil_iff] at h
  have h3 : ∀ a ∈ (trimLeft s).reverse, pySpace a = true := by
    rw [List.dropWhile_eq_nil_iff] at h2
    exact h2
  intro a ha
  rw [show s = s.takeWhile pySpace ++ s.dropWhile pySpace from
    (List.takeWhile_append_dropWhile pySpace s).symm] at ha
  rcases List.mem_append.mp ha with h4 | h4
  · exact List.mem_takeWhile_imp h4
  · exact h3 a (List.mem_reverse.mpr h4)

/-- Left trimming never lengthens a string. -/
theorem trimLeft_length_le (s : Str) : (trimLeft s).length ≤ s.length :=
  length_dropWhile_le pySpace s

/-- Right trimming never lengthens a string. -/
theorem trimRight_length_le (s : Str) : (trimRight s).length ≤ s.length := by
  unfold trimRight
  rw [List.length_reverse]
  calc (s.reverse.dropWhile pySpace).length ≤ s.reverse.length :=
        length_dropWhile_le pySpace s.reverse
  _ = s.length := List.length_reverse s

/-- Pure whitespace contains no item match. -/
theorem itemMatches_allspace {tag : Str} (htag : ∀ a ∈ tag, pySpace a = false)
    (s : Str) (hs : ∀ a ∈ s, pySpace a = true) : itemMatches tag s = [] := by
  unfold itemMatches itemMatchesFuel
  rw [findSplit_allspace_none (openTag_ne_nil tag) (openTag_nonspace htag) s hs]

/-- Stripping a span does not change its item matches, because tags
contain no whitespace. -/
theorem itemMatches_strip {tag : Str} (htag : ∀ a ∈ tag, pySpace a = false) (s : Str) :
    itemMatches tag (pyStrip s) = itemMatches tag s := by
  obtain ⟨ws1, hws1, hdec1⟩ := trimLeft_decomp s
  obtain ⟨ws2, hws2, hdec2⟩ := trimRight_decomp (trimLeft s)
  have hlen : (pyStrip s).length ≤ s.length :=
    le_trans (trimRight_length_le (trimLeft s)) (trimLeft_length_le s)
  unfold itemMatches
  have c1 : itemMatchesFuel tag ((pyStrip s).length + 1) (pyStrip s) =
      itemMatchesFuel tag (s.length + 1) (pyStrip s) :=
    itemMatchesFuel_congr tag s.length (pyStrip s) (by omega) _ _ (by omega) (by omega)
  have c2 : itemMatchesFuel tag (s.length + 1) (pyStrip s ++ ws2) =
      itemMatchesFuel tag (s.length + 1) (pyStrip s) :=
    itemMatchesFuel_ws_append htag (s.length + 1) (pyStrip s) ws2 hws2
  have e0 : pyStrip s ++ ws2 = trimLeft s := hdec2.symm
  have c3 : itemMatchesFuel tag (s.length + 1) (ws1 ++ trimLeft s) =
      itemMatchesFuel tag (s.length + 1) (trimLeft s) :=
    itemMatchesFuel_ws_prepend htag (s.length + 1) ws1 (trimLeft s) hws1
  rw [c1, ← c2, e0, ← c3, ← hdec1]

/-- C7: for every input text and whitespace-free item tag name, the list
tag extraction equals the item extraction over the raw span of the first
parent tag (every item-tag match within that span, in document order,
each inner text trimmed as extraction trims), and it is empty when the
parent tag is absent. -/
theorem c7_list_extraction (text parentTag itemTag : Str)
    (hi : ∀ a ∈ itemTag, pySpace a = false) :
    extract_list text parentTag itemTag = listTagSpec text parentTag itemTag := by
  unfold extract_list listTagSpec extract_tag
  cases hr : rawExtractTag text parentTag with
  | none => rfl
  | some raw =>
    show (if (pyStrip raw).isEmpty then [] else itemMatches itemTag (pyStrip raw)) =
      itemMatches itemTag raw
    cases he : (pyStrip raw).isEmpty with
    | true =>
      have hnil : pyStrip raw = [] := by
        rwa [List.isEmpty_iff] at he
      simp only [he, if_true]
      exact (itemMatches_allspace hi raw (strip_nil_allspace hnil)).symm
    | false =>
      simp only [he, Bool.false_eq_true, if_false]
      exact itemMatches_strip hi raw

/-- C7 witness: a concrete two-item values list with surrounding
whitespace and an embedded newline. -/
theorem c7_list_extraction_witness :
    extract_list ("<values> <value> a </value>\n<value>b</value> </values>".toList)
        ("values".toList) ("value".toList) =
      listTagSpec ("<values> <value> a </value>\n<value>b</value> </values>".toList)
        ("values".toList) ("value".toList) :=
  c7_list_extraction _ _ _ (by decide)

end AlainBot
